import Mathlib

/-!
Verification of the Inventory Reconciliation and Audit Engine.

The definitions below are a shallow embedding of the audit engine of the
repository: the inventory context (item master, closing stock, audited
items, summaries, questionnaire), the Supabase data service boundary
(row conversion and keyed upsert), the CSV import handler, and the
barcode scan processor.  Quantities are modelled as integers, optional
fields as `Option`, and the persisted `inventory_items` table as a list
of database rows with an upsert keyed on (sku, location).  Identifiers
generated by the database are not modelled: the service layer never
sends an id with an inventory row, so no claim depends on them.
-/

/-- Audit status of a reconciled item record, from the
`InventoryItem.status` union type of the inventory context. -/
inductive Status
  | pending
  | matched
  | discrepancy
deriving DecidableEq, Repr

/-- Caller role, from the `UserProfile.role` union type. -/
inductive Role
  | admin
  | auditor
  | client
deriving DecidableEq, Repr

/-- The `InventoryItem` interface of the inventory context. -/
structure InventoryItem where
  id : String
  sku : String
  name : Option String
  category : Option String
  location : String
  systemQuantity : Int
  physicalQuantity : Option Int
  status : Option Status
  lastAudited : Option String
  notes : Option String
  companyId : Option String
deriving DecidableEq, Repr

/-- The `Location` interface of the inventory context. -/
structure Location where
  id : String
  name : String
  description : Option String
  active : Option Bool
deriving DecidableEq, Repr

/-- A row of the `inventory_items` table, as built by
`SupabaseDataService.inventoryItemToDb`.  The service never sends the
`id` or `category` columns, so they are not part of the row. -/
structure DbItem where
  sku : String
  name : Option String
  location : String
  system_quantity : Int
  physical_quantity : Option Int
  status : Status
  last_audited : Option String
  notes : Option String
  company_id : Option String
deriving DecidableEq, Repr

/-- The persistent state the engine acts on: the `inventory_items`
table held by the persistence collaborator. -/
structure EngineState where
  table : List DbItem
deriving DecidableEq, Repr

/-- The composite natural key (sku, location) of an inventory row. -/
def dbKey (r : DbItem) : String × String :=
  (r.sku, r.location)

/-- The composite natural key (sku, location) of a domain record. -/
def itemKey (i : InventoryItem) : String × String :=
  (i.sku, i.location)

/-- `SupabaseDataService.inventoryItemToDb`: domain record to table row.
The JavaScript expression `item.status || 'pending'` maps a missing
status to `pending`. -/
def inventoryItemToDb (item : InventoryItem) : DbItem :=
  { sku := item.sku
    name := item.name
    location := item.location
    system_quantity := item.systemQuantity
    physical_quantity := item.physicalQuantity
    status := item.status.getD Status.pending
    last_audited := item.lastAudited
    notes := item.notes
    company_id := item.companyId }

/-- `SupabaseDataService.dbToInventoryItem`: table row to domain record.
The database generated id is not modelled and comes back empty; the
`category` column is not read by the service, so it comes back absent. -/
def dbToInventoryItem (r : DbItem) : InventoryItem :=
  { id := ""
    sku := r.sku
    name := r.name
    category := none
    location := r.location
    systemQuantity := r.system_quantity
    physicalQuantity := r.physical_quantity
    status := some r.status
    lastAudited := r.last_audited
    notes := r.notes
    companyId := r.company_id }

/-- One step of the keyed upsert used by every write of the data
service (`upsert(dbItems, onConflict sku,location)`): a row whose key
already exists replaces the row with that key, otherwise it is
appended. -/
def upsertRow (table : List DbItem) (row : DbItem) : List DbItem :=
  if table.any (fun r => dbKey r == dbKey row) then
    table.map (fun r => if dbKey r == dbKey row then row else r)
  else
    table ++ [row]

/-- Keyed upsert of a batch of rows, applied in order. -/
def upsertRows (table : List DbItem) (rows : List DbItem) : List DbItem :=
  rows.foldl upsertRow table

/-- `SupabaseDataService.getItemMaster`: every row of the table read
back as a domain record (the sku column is never null here). -/
def getItemMaster (s : EngineState) : List InventoryItem :=
  s.table.map dbToInventoryItem

/-- `SupabaseDataService.getAuditedItems`: rows whose `last_audited`
column is not null, read back as domain records. -/
def getAuditedItems (s : EngineState) : List InventoryItem :=
  (s.table.filter (fun r => r.last_audited.isSome)).map dbToInventoryItem

/-- The status derivation written inline in `updateAuditedItem` of the
inventory context:
`physicalQuantity !== undefined && systemQuantity === physicalQuantity`
gives matched, otherwise a defined physical quantity gives discrepancy
and an undefined one gives pending. -/
def deriveStatus (systemQuantity : Int) (physicalQuantity : Option Int) : Status :=
  if physicalQuantity.isSome && physicalQuantity == some systemQuantity then
    Status.matched
  else if physicalQuantity.isSome then
    Status.discrepancy
  else
    Status.pending

/-- The record built by `updateAuditedItem` before persisting: the
JavaScript expression `item.physicalQuantity || 0` coerces a missing
physical quantity to zero, the status is derived from the incoming
fields, and the audit timestamp is set to the current time. -/
def auditedItemUpdate (now : String) (item : InventoryItem) : InventoryItem :=
  { item with
    physicalQuantity := some (item.physicalQuantity.getD 0)
    status := some (deriveStatus item.systemQuantity item.physicalQuantity)
    lastAudited := some now }

/-- `updateAuditedItem` of the inventory context: build the updated
record and persist it through `setAuditedItems`, a single row keyed
upsert. -/
def updateAuditedItem (now : String) (s : EngineState) (item : InventoryItem) : EngineState :=
  { table := upsertRows s.table [inventoryItemToDb (auditedItemUpdate now item)] }

/-- The merge step of `setClosingStock` for one incoming row: look up
the current item master by (sku, location); when found, spread the
existing record and overwrite only `systemQuantity`; when not found,
the incoming row is used as is. -/
def mergeClosingStockItem (itemMaster : List InventoryItem) (incomingItem : InventoryItem) : InventoryItem :=
  match itemMaster.find? (fun i => i.sku == incomingItem.sku && i.location == incomingItem.location) with
  | some existingItem => { existingItem with systemQuantity := incomingItem.systemQuantity }
  | none => incomingItem

/-- The merge of `setClosingStock` applied to the whole incoming
batch. -/
def mergeClosingStock (itemMaster : List InventoryItem) (items : List InventoryItem) : List InventoryItem :=
  items.map (mergeClosingStockItem itemMaster)

/-- `setClosingStock` of the inventory context: merge the incoming
closing stock rows against the current item master and persist the
merged batch through the keyed upsert of the data service. -/
def setClosingStock (s : EngineState) (items : List InventoryItem) : EngineState :=
  { table := upsertRows s.table ((mergeClosingStock (getItemMaster s) items).map inventoryItemToDb) }

/-- `setItemMaster` of the inventory context: persist the rows through
the keyed upsert of the data service. -/
def setItemMaster (s : EngineState) (items : List InventoryItem) : EngineState :=
  { table := upsertRows s.table (items.map inventoryItemToDb) }

/-- The item master branch of `handleImport` in the file uploader: the
processed rows are the parsed rows with `systemQuantity` explicitly
set to zero. -/
def handleImportItemMaster (baseItems : List InventoryItem) : List InventoryItem :=
  baseItems.map (fun item => { item with systemQuantity := 0 })

/-- `scanItem` of the inventory context: find the master record by
barcode (id or sku) at the given location name, then update the
audited item with the physical quantity incremented by one; a missing
record raises an error. -/
def scanItem (now : String) (s : EngineState) (barcode : String) (locationName : String) : Except String EngineState :=
  match (getItemMaster s).find? (fun i => (i.id == barcode || i.sku == barcode) && i.location == locationName) with
  | none => Except.error ("Item with barcode " ++ barcode ++ " not found at location " ++ locationName)
  | some item =>
    Except.ok (updateAuditedItem now s
      { item with
        physicalQuantity := some (item.physicalQuantity.getD 0 + 1)
        status := some Status.pending })

/-- `addItemToAudit` of the inventory context: a negative quantity
returns at once; otherwise the record is updated through
`updateAuditedItem` with the given physical quantity. -/
def addItemToAudit (now : String) (s : EngineState) (item : InventoryItem) (quantity : Int) : EngineState :=
  if quantity < 0 then
    s
  else
    updateAuditedItem now s
      { item with
        physicalQuantity := some quantity
        status := some (if quantity == item.systemQuantity then Status.matched else Status.discrepancy)
        lastAudited := some now }

/-- The accessible location filter of the file uploader (the same
computation as the `useUserAccess` hook consumed by the scanner): an
admin sees every location, anyone else only the locations whose id is
in the assigned set. -/
def accessibleLocations (userRole : Role) (assignedLocations : List String) (locations : List Location) : List Location :=
  locations.filter (fun location => userRole == Role.admin || assignedLocations.contains location.id)

/-- Outcome warning surfaced by the scan processor on a location
mismatch. -/
inductive ScanWarning
  | locationMismatchAdmin
  | locationCorrected
deriving DecidableEq, Repr

/-- Outcome of one call of `handleItemScan` in the barcode scanner,
mirroring the toasts and the returned boolean of the handler. -/
inductive ScanResult
  | locationRequired
  | invalidLocation
  | itemNotFound
  | accessDenied
  | success (warning : Option ScanWarning) (location : String)
      (initialQuantity : Int) (newQuantity : Int) (status : Status)
deriving DecidableEq, Repr

/-- The JavaScript expression `a || b` on optional strings: an absent
or empty left side falls through to the right side. -/
def jsOrString (a : Option String) (b : Option String) : Option String :=
  match a with
  | some s => if s == "" then b else some s
  | none => b

/-- Location name resolution of `handleItemScan`:
`locations.find(loc => loc.id === locationId)?.name || ''`. -/
def resolveLocationName (locations : List Location) (locationId : String) : String :=
  match locations.find? (fun loc => loc.id == locationId) with
  | some loc => loc.name
  | none => ""

/-- The commit path of `handleItemScan` (steps 3 to 6 of the handler):
read the existing audited record for the sku at the resolved location,
increment its physical quantity (or start from zero), compute the
status against the system quantity of the master record, and persist
through `updateAuditedItem`. -/
def scanCommit (now : String) (s : EngineState) (masterItem : InventoryItem)
    (warning : Option ScanWarning) (locationName : String) : ScanResult × EngineState :=
  let existingAuditedItem :=
    (getAuditedItems s).find? (fun item => item.sku == masterItem.sku && item.location == locationName)
  let initialPhysicalQuantity := (existingAuditedItem.bind (fun i => i.physicalQuantity)).getD 0
  let newPhysicalQuantity := initialPhysicalQuantity + 1
  let status :=
    if newPhysicalQuantity == masterItem.systemQuantity then Status.matched else Status.discrepancy
  let itemToUpdate : InventoryItem :=
    { id := masterItem.id
      sku := masterItem.sku
      name := masterItem.name
      category := masterItem.category
      location := locationName
      systemQuantity := masterItem.systemQuantity
      physicalQuantity := some newPhysicalQuantity
      status := some status
      lastAudited := some now
      notes := jsOrString (existingAuditedItem.bind (fun i => i.notes)) masterItem.notes
      companyId := none }
  (ScanResult.success warning locationName initialPhysicalQuantity newPhysicalQuantity status,
    updateAuditedItem now s itemToUpdate)

/-- `handleItemScan` of the barcode scanner: location validation, item
lookup by barcode over the whole master list, the location mismatch
policy (admin override, non admin corrected or denied), then the
commit path.  The caller supplies the accessible location list that
the component reads from the user access hook. -/
def handleItemScan (now : String) (locations : List Location) (role : Role)
    (userAccessibleLocations : List Location) (s : EngineState)
    (barcode : String) (locationId : String) : ScanResult × EngineState :=
  if locationId == "" then
    (ScanResult.locationRequired, s)
  else
    let locationName := resolveLocationName locations locationId
    if locationName == "" then
      (ScanResult.invalidLocation, s)
    else
      match (getItemMaster s).find? (fun item => item.id == barcode || item.sku == barcode) with
      | none => (ScanResult.itemNotFound, s)
      | some masterItem =>
        if masterItem.location != locationName then
          if role == Role.admin then
            scanCommit now s masterItem (some ScanWarning.locationMismatchAdmin) masterItem.location
          else if (userAccessibleLocations.find? (fun loc => loc.name == masterItem.location)).isSome then
            scanCommit now s masterItem (some ScanWarning.locationCorrected) masterItem.location
          else
            (ScanResult.accessDenied, s)
        else
          scanCommit now s masterItem none locationName

/-- The summary record returned by the aggregator.  All fields are
numbers in the source; `pendingItems` is a subtraction, so everything
is an integer here. -/
structure Summary where
  totalItems : Int
  auditedItems : Int
  pendingItems : Int
  matched : Int
  discrepancies : Int
deriving DecidableEq, Repr

/-- The lookup of an audited record for a master record used by both
summaries. -/
def auditMatchOf (auditedItems : List InventoryItem) (m : InventoryItem) : Option InventoryItem :=
  auditedItems.find? (fun a => a.sku == m.sku && a.location == m.location)

/-- Whether the audited record found for a master record has the given
status: the branch bodies of the forEach in both summaries. -/
def auditStatusIs (auditedItems : List InventoryItem) (want : Status) (m : InventoryItem) : Bool :=
  match auditMatchOf auditedItems m with
  | some a => a.status == some want
  | none => false

/-- The key string `sku + "-" + location` collected into a Set by
`getInventorySummary`. -/
def auditKeyString (i : InventoryItem) : String :=
  i.sku ++ "-" ++ i.location

/-- `getInventorySummary` of the inventory context: total is the size
of the item master, audited is the number of distinct key strings
among audited items, pending the difference, matched and discrepancy
counted over the master list against the audited records. -/
def getInventorySummary (itemMaster auditedItems : List InventoryItem) : Summary :=
  let totalItems := itemMaster.length
  let auditedItemsCount := ((auditedItems.map auditKeyString).dedup).length
  let matched := itemMaster.countP (auditStatusIs auditedItems Status.matched)
  let discrepancies := itemMaster.countP (auditStatusIs auditedItems Status.discrepancy)
  { totalItems := (totalItems : Int)
    auditedItems := (auditedItemsCount : Int)
    pendingItems := (totalItems : Int) - (auditedItemsCount : Int)
    matched := (matched : Int)
    discrepancies := (discrepancies : Int) }

/-- `getLocationSummary` of the inventory context: the same counts
over the records whose location equals the given name, except that the
audited count is a plain length of the filtered audited list. -/
def getLocationSummary (itemMaster auditedItems : List InventoryItem) (locationName : String) : Summary :=
  let locationItems := itemMaster.filter (fun item => item.location == locationName)
  let locationAuditedItems := auditedItems.filter (fun item => item.location == locationName)
  let totalItems := locationItems.length
  let auditedItemsCount := locationAuditedItems.length
  let matched := locationItems.countP (auditStatusIs locationAuditedItems Status.matched)
  let discrepancies := locationItems.countP (auditStatusIs locationAuditedItems Status.discrepancy)
  { totalItems := (totalItems : Int)
    auditedItems := (auditedItemsCount : Int)
    pendingItems := (totalItems : Int) - (auditedItemsCount : Int)
    matched := (matched : Int)
    discrepancies := (discrepancies : Int) }

/-- The record status invariant of the data model: a row with a
physical quantity has status matched or discrepancy, a row without one
has status pending. -/
def recordInvariant (r : DbItem) : Prop :=
  (r.physical_quantity.isSome → r.status = Status.matched ∨ r.status = Status.discrepancy) ∧
  (r.physical_quantity = none → r.status = Status.pending)

instance (r : DbItem) : Decidable (recordInvariant r) := by
  unfold recordInvariant
  infer_instance

/-- Pairwise distinct composite keys, the uniqueness constraint the
`inventory_items` table enforces on (sku, location). -/
def distinctKeys (table : List DbItem) : Prop :=
  (table.map dbKey).Nodup

instance (table : List DbItem) : Decidable (distinctKeys table) := by
  unfold distinctKeys
  infer_instance

/-- Pairwise distinct composite keys of an incoming batch of domain
records. -/
def distinctItemKeys (items : List InventoryItem) : Prop :=
  (items.map itemKey).Nodup

instance (items : List InventoryItem) : Decidable (distinctItemKeys items) := by
  unfold distinctItemKeys
  infer_instance

/-! ### Concrete fixtures used by the witnesses -/

/-- A location named L1. -/
def locL1 : Location :=
  { id := "loc1", name := "L1", description := none, active := none }

/-- A location named L2. -/
def locL2 : Location :=
  { id := "loc2", name := "L2", description := none, active := none }

/-- A catalog row for sku A1 at L1 with system quantity 3 and no
physical count yet. -/
def rowA1 : DbItem :=
  { sku := "A1", name := some "Widget", location := "L1", system_quantity := 3
    physical_quantity := none, status := Status.pending, last_audited := none
    notes := none, company_id := none }

/-- A catalog row for sku B2 at L2 with system quantity 5. -/
def rowB2 : DbItem :=
  { sku := "B2", name := some "Gadget", location := "L2", system_quantity := 5
    physical_quantity := none, status := Status.pending, last_audited := none
    notes := none, company_id := none }

/-- An engine state holding the two catalog rows. -/
def stateA : EngineState :=
  { table := [rowA1, rowB2] }

/-- The row for sku A1 after one successful scan at time t1. -/
def rowA1AfterScan : DbItem :=
  { sku := "A1", name := some "Widget", location := "L1", system_quantity := 3
    physical_quantity := some 1, status := Status.discrepancy
    last_audited := some "t1", notes := none, company_id := none }

/-- A sample domain record for sku A1 at L1. -/
def itemA1 : InventoryItem :=
  { id := "", sku := "A1", name := some "Widget", category := none, location := "L1"
    systemQuantity := 3, physicalQuantity := none, status := some Status.pending
    lastAudited := none, notes := none, companyId := none }

/-! ### Helper lemmas -/

/-- What the commit path of a scan produces: the outcome fields and the
single row written through the keyed upsert. -/
theorem scanCommit_spec (now : String) (s : EngineState) (m : InventoryItem)
    (w : Option ScanWarning) (ln : String) (w2 : Option ScanWarning) (loc : String)
    (oldQ newQ : Int) (st : Status) (s2 : EngineState)
    (h : scanCommit now s m w ln = (ScanResult.success w2 loc oldQ newQ st, s2)) :
    w2 = w ∧ loc = ln ∧ newQ = oldQ + 1 ∧
    oldQ = (((getAuditedItems s).find?
        (fun item => item.sku == m.sku && item.location == ln)).bind
          (fun i => i.physicalQuantity)).getD 0 ∧
    st = deriveStatus m.systemQuantity (some newQ) ∧
    ∃ r, s2.table = upsertRows s.table [r] ∧ r.sku = m.sku ∧ r.location = ln ∧
      r.system_quantity = m.systemQuantity ∧ r.physical_quantity = some newQ ∧
      r.status = st ∧ r.last_audited = some now := by
  simp only [scanCommit, Prod.mk.injEq, ScanResult.success.injEq] at h
  obtain ⟨⟨hw, hloc, hold, hnew, hst⟩, hs2⟩ := h
  subst hw hloc hold hnew hst hs2
  refine ⟨rfl, rfl, rfl, rfl, ?_, ?_⟩
  · simp [deriveStatus]
  · refine ⟨_, rfl, rfl, rfl, rfl, ?_, ?_, rfl⟩
    · simp [inventoryItemToDb, auditedItemUpdate]
    · simp [inventoryItemToDb, auditedItemUpdate, deriveStatus]

/-- Every success outcome of `handleItemScan` goes through the commit
path for the master record found by the barcode, under either the
selected location or the location of the record. -/
theorem handleItemScan_success_cases (now : String) (locations : List Location) (role : Role)
    (access : List Location) (s : EngineState) (barcode locationId : String)
    (w : Option ScanWarning) (loc : String) (oldQ newQ : Int) (st : Status) (s2 : EngineState)
    (h : handleItemScan now locations role access s barcode locationId =
      (ScanResult.success w loc oldQ newQ st, s2)) :
    ∃ m, (getItemMaster s).find? (fun item => item.id == barcode || item.sku == barcode) = some m ∧
      scanCommit now s m w loc = (ScanResult.success w loc oldQ newQ st, s2) := by
  by_cases h0 : locationId == ""
  · simp [handleItemScan, h0] at h
  · simp only [handleItemScan, h0, if_false, Bool.false_eq_true] at h
    by_cases h1 : resolveLocationName locations locationId == ""
    · simp [h1] at h
    · simp only [h1, if_false, Bool.false_eq_true] at h
      cases hfind : (getItemMaster s).find? (fun item => item.id == barcode || item.sku == barcode) with
      | none => simp [hfind] at h
      | some m =>
        refine ⟨m, rfl, ?_⟩
        simp only [hfind] at h
        by_cases h2 : (m.location != resolveLocationName locations locationId) = true
        · simp only [h2, if_true] at h
          by_cases h3 : role == Role.admin
          · simp only [h3, if_true] at h
            have := (scanCommit_spec now s m (some ScanWarning.locationMismatchAdmin)
              m.location w loc oldQ newQ st s2 h)
            obtain ⟨hw, hloc, -⟩ := this
            subst hw hloc
            exact h
          · simp only [h3, if_false, Bool.false_eq_true] at h
            by_cases h4 : (access.find? (fun l => l.name == m.location)).isSome
            · simp only [h4, if_true] at h
              have := (scanCommit_spec now s m (some ScanWarning.locationCorrected)
                m.location w loc oldQ newQ st s2 h)
              obtain ⟨hw, hloc, -⟩ := this
              subst hw hloc
              exact h
            · simp [h4] at h
        · simp only [h2, Bool.false_eq_true, if_false] at h
          have := (scanCommit_spec now s m none
            (resolveLocationName locations locationId) w loc oldQ newQ st s2 h)
          obtain ⟨hw, hloc, -⟩ := this
          subst hw hloc
          exact h

/-! ### C1: the three way status rule at every write site -/

/-- C1: every record write derives its status by the three way rule:
an absent physical quantity gives pending, a physical quantity equal
to the system quantity gives matched, a different one gives
discrepancy; in particular equal quantities q with q at least zero
give matched.  The rule is stated for the derivation itself, for the
record built by `updateAuditedItem` (batch update), for the row
written by `addItemToAudit` (manual entry), and for the row written by
a successful `handleItemScan` (scan). -/
theorem deriveStatus_three_way_rule :
    (∀ s : Int, deriveStatus s none = Status.pending) ∧
    (∀ s p : Int, p = s → deriveStatus s (some p) = Status.matched) ∧
    (∀ s p : Int, p ≠ s → deriveStatus s (some p) = Status.discrepancy) ∧
    (∀ q : Int, 0 ≤ q → deriveStatus q (some q) = Status.matched) ∧
    (∀ now item, (auditedItemUpdate now item).status =
      some (deriveStatus item.systemQuantity item.physicalQuantity)) ∧
    (∀ now s item q, 0 ≤ q →
      ∃ r, (addItemToAudit now s item q).table = upsertRows s.table [r] ∧
        r.physical_quantity = some q ∧
        r.status = deriveStatus item.systemQuantity (some q)) ∧
    (∀ now locations role access s barcode locationId w loc oldQ newQ st s2,
      handleItemScan now locations role access s barcode locationId =
        (ScanResult.success w loc oldQ newQ st, s2) →
      ∃ r, s2.table = upsertRows s.table [r] ∧
        r.physical_quantity = some newQ ∧ st = r.status ∧
        r.status = deriveStatus r.system_quantity r.physical_quantity) := by
  refine ⟨?_, ?_, ?_, ?_, ?_, ?_, ?_⟩
  · intro s
    simp [deriveStatus]
  · intro s p h
    simp [deriveStatus, h]
  · intro s p h
    simp [deriveStatus, h]
  · intro q _
    simp [deriveStatus]
  · intro now item
    simp [auditedItemUpdate]
  · intro now s item q hq
    have hneg : ¬ q < 0 := not_lt.mpr hq
    simp only [addItemToAudit, if_neg hneg, updateAuditedItem]
    refine ⟨_, rfl, ?_, ?_⟩
    · simp [inventoryItemToDb, auditedItemUpdate]
    · simp [inventoryItemToDb, auditedItemUpdate]
  · intro now locations role access s barcode locationId w loc oldQ newQ st s2 h
    obtain ⟨m, -, hc⟩ := handleItemScan_success_cases now locations role access s barcode
      locationId w loc oldQ newQ st s2 h
    obtain ⟨-, -, -, -, hst, r, hr, -, -, hsys, hphys, hrst, -⟩ :=
      scanCommit_spec now s m w loc w loc oldQ newQ st s2 hc
    exact ⟨r, hr, hphys, hrst.symm, by rw [hrst, hst, hsys, hphys]⟩

/-- Witness for C1 at concrete inputs: the matched case at 5, the
discrepancy case at 4 against 5, the non negative case at 7, a manual
entry of quantity 3, and a successful scan of sku A1. -/
theorem deriveStatus_three_way_rule_witness :
    deriveStatus 5 (some 5) = Status.matched ∧
    deriveStatus 5 (some 4) = Status.discrepancy ∧
    deriveStatus 7 (some 7) = Status.matched ∧
    (∃ r, (addItemToAudit "t1" stateA itemA1 3).table = upsertRows stateA.table [r] ∧
      r.physical_quantity = some 3 ∧
      r.status = deriveStatus itemA1.systemQuantity (some 3)) ∧
    (∃ r, (EngineState.mk [rowA1AfterScan, rowB2]).table = upsertRows stateA.table [r] ∧
      r.physical_quantity = some 1 ∧ Status.discrepancy = r.status ∧
      r.status = deriveStatus r.system_quantity r.physical_quantity) := by
  refine ⟨deriveStatus_three_way_rule.2.1 5 5 rfl,
    deriveStatus_three_way_rule.2.2.1 5 4 (by decide),
    deriveStatus_three_way_rule.2.2.2.1 7 (by decide),
    deriveStatus_three_way_rule.2.2.2.2.2.1 "t1" stateA itemA1 3 (by decide),
    deriveStatus_three_way_rule.2.2.2.2.2.2 "t1" [locL1, locL2] Role.admin [] stateA
      "A1" "loc1" none "L1" 0 1 Status.discrepancy _ (by decide)⟩

/-! ### C10: negative manual quantities are silently ignored -/

/-- C10: `addItemToAudit` with a strictly negative quantity returns at
once: the engine state (hence the persisted record set) is exactly
what it was, and the function returns normally rather than raising. -/
theorem addItemToAudit_negative_ignored (now : String) (s : EngineState)
    (item : InventoryItem) (quantity : Int) (h : quantity < 0) :
    addItemToAudit now s item quantity = s := by
  simp [addItemToAudit, h]

/-- Witness for C10: quantity minus one leaves the two row state
untouched. -/
theorem addItemToAudit_negative_ignored_witness :
    addItemToAudit "t1" stateA itemA1 (-1) = stateA :=
  addItemToAudit_negative_ignored "t1" stateA itemA1 (-1) (by decide)

/-! ### C7: catalog import forces the system quantity to zero -/

/-- C7: every row submitted to persistence by the item master branch
of `handleImport` has system quantity zero, whatever quantity the
parsed input row carried. -/
theorem handleImportItemMaster_zero_quantity (baseItems : List InventoryItem) (r : DbItem)
    (h : r ∈ (handleImportItemMaster baseItems).map inventoryItemToDb) :
    r.system_quantity = 0 := by
  simp only [handleImportItemMaster, List.map_map, List.mem_map, Function.comp] at h
  obtain ⟨item, -, rfl⟩ := h
  simp [inventoryItemToDb]

/-- Witness for C7: an input row carrying quantity 42 is submitted
with quantity zero. -/
theorem handleImportItemMaster_zero_quantity_witness :
    (inventoryItemToDb { itemA1 with systemQuantity := 0 }).system_quantity = 0 :=
  handleImportItemMaster_zero_quantity [{ itemA1 with systemQuantity := 42 }]
    (inventoryItemToDb { itemA1 with systemQuantity := 0 }) (by decide)

/-! ### C2: the record status invariant -/

/-- Membership in an upsert step: a row of the result is an old row or
the upserted row. -/
theorem mem_upsertRow {table : List DbItem} {row r : DbItem} (h : r ∈ upsertRow table row) :
    r ∈ table ∨ r = row := by
  unfold upsertRow at h
  by_cases hc : (table.any (fun t => dbKey t == dbKey row)) = true
  · rw [if_pos hc] at h
    obtain ⟨t, ht, heq⟩ := List.mem_map.mp h
    by_cases hk : (dbKey t == dbKey row) = true
    · rw [if_pos hk] at heq
      exact Or.inr heq.symm
    · rw [if_neg hk] at heq
      exact Or.inl (heq ▸ ht)
  · rw [if_neg hc] at h
    rcases List.mem_append.mp h with hmem | hmem
    · exact Or.inl hmem
    · exact Or.inr (List.mem_singleton.mp hmem)

/-- Counterexample to C2 as stated: applying `updateAuditedItem` to a
record whose physical quantity is absent stores a row whose physical
quantity is present (coerced to zero) while its status is pending,
breaking the invariant. -/
theorem updateAuditedItem_invariant_cex :
    ∃ r ∈ (updateAuditedItem "t1" stateA itemA1).table,
      r.physical_quantity = some 0 ∧ r.status = Status.pending ∧ ¬ recordInvariant r := by
  decide

/-- C2 amended: `updateAuditedItem` preserves the record status
invariant whenever the physical quantity of the input item is present;
every record of the resulting stored set satisfies the invariant
provided the records of the starting set do. -/
theorem updateAuditedItem_invariant (now : String) (s : EngineState) (item : InventoryItem)
    (hpre : ∀ r ∈ s.table, recordInvariant r)
    (hphys : item.physicalQuantity.isSome) :
    ∀ r ∈ (updateAuditedItem now s item).table, recordInvariant r := by
  intro r hr
  simp only [updateAuditedItem, upsertRows, List.foldl] at hr
  rcases mem_upsertRow hr with hold | hnew
  · exact hpre r hold
  · subst hnew
    obtain ⟨p, hp⟩ := Option.isSome_iff_exists.mp hphys
    constructor
    · intro _
      simp only [inventoryItemToDb, auditedItemUpdate, deriveStatus, hp]
      by_cases hpq : p = item.systemQuantity
      · simp [hpq]
      · simp [hpq]
    · intro habs
      simp [inventoryItemToDb, auditedItemUpdate] at habs
  
/-- Witness for the amended C2: updating sku A1 with a present
physical quantity of 2 yields a stored row satisfying the invariant. -/
theorem updateAuditedItem_invariant_witness :
    recordInvariant
      { sku := "A1", name := some "Widget", location := "L1", system_quantity := 3
        physical_quantity := some 2, status := Status.discrepancy
        last_audited := some "t2", notes := none, company_id := none } :=
  updateAuditedItem_invariant "t2" stateA { itemA1 with physicalQuantity := some 2 }
    (by decide) (by decide) _ (by decide)

/-! ### C3: scanning increments the physical quantity -/

/-- Fixture: the A1 row after a second scan at time t2. -/
def rowA1Scan2 : DbItem :=
  { rowA1AfterScan with physical_quantity := some 2, last_audited := some "t2" }

/-- Fixture: the A1 row after a third scan at time t3, now matched. -/
def rowA1Scan3 : DbItem :=
  { rowA1AfterScan with
    physical_quantity := some 3
    status := Status.matched
    last_audited := some "t3" }

/-- Fixture: the engine state after the first scan of A1. -/
def sScan1 : EngineState :=
  { table := [rowA1AfterScan, rowB2] }

/-- Fixture: the engine state after the second scan of A1. -/
def sScan2 : EngineState :=
  { table := [rowA1Scan2, rowB2] }

/-- Fixture: the engine state after the third scan of A1. -/
def sScan3 : EngineState :=
  { table := [rowA1Scan3, rowB2] }

/-- C3: scans increment rather than set.  A successful
`handleItemScan` writes a single row whose physical quantity is the
physical quantity of the existing audited record for that sku at the
resolved location (zero when there is none) plus one; `scanItem` of
the inventory context likewise writes the physical quantity of the
found master record plus one. -/
theorem scan_increment_rule :
    (∀ now locations role access s barcode locationId w loc oldQ newQ st s2,
      handleItemScan now locations role access s barcode locationId =
        (ScanResult.success w loc oldQ newQ st, s2) →
      newQ = oldQ + 1 ∧
      ∃ r, s2.table = upsertRows s.table [r] ∧ r.location = loc ∧
        r.physical_quantity = some newQ ∧
        oldQ = (((getAuditedItems s).find?
          (fun i => i.sku == r.sku && i.location == loc)).bind
            (fun i => i.physicalQuantity)).getD 0) ∧
    (∀ now s barcode locationName s2,
      scanItem now s barcode locationName = Except.ok s2 →
      ∃ item, (getItemMaster s).find?
          (fun i => (i.id == barcode || i.sku == barcode) && i.location == locationName) =
            some item ∧
        ∃ r, s2.table = upsertRows s.table [r] ∧
          r.physical_quantity = some (item.physicalQuantity.getD 0 + 1)) := by
  constructor
  · intro now locations role access s barcode locationId w loc oldQ newQ st s2 h
    obtain ⟨m, -, hc⟩ := handleItemScan_success_cases now locations role access s barcode
      locationId w loc oldQ newQ st s2 h
    obtain ⟨-, -, hinc, hold, -, r, hr, hsku, hloc, -, hphys, -, -⟩ :=
      scanCommit_spec now s m w loc w loc oldQ newQ st s2 hc
    exact ⟨hinc, r, hr, hloc, hphys, by rw [hold, hsku]⟩
  · intro now s barcode locationName s2 h
    unfold scanItem at h
    cases hfind : (getItemMaster s).find?
        (fun i => (i.id == barcode || i.sku == barcode) && i.location == locationName) with
    | none => rw [hfind] at h; exact absurd h (by simp)
    | some item =>
      rw [hfind] at h
      refine ⟨item, rfl, ?_⟩
      obtain rfl : updateAuditedItem now s
          { item with
            physicalQuantity := some (item.physicalQuantity.getD 0 + 1)
            status := some Status.pending } = s2 := by
        exact Except.ok.inj h
      refine ⟨_, rfl, ?_⟩
      simp [inventoryItemToDb, auditedItemUpdate]

/-- Witness for C3: three successive scans of sku A1 at L1 with system
quantity 3 take the physical quantity from none to 1, 2 (still a
discrepancy) and 3 (now matched); the theorem is applied to the third
scan. -/
theorem scan_increment_rule_witness :
    handleItemScan "t1" [locL1, locL2] Role.admin [] stateA "A1" "loc1" =
      (ScanResult.success none "L1" 0 1 Status.discrepancy, sScan1) ∧
    handleItemScan "t2" [locL1, locL2] Role.admin [] sScan1 "A1" "loc1" =
      (ScanResult.success none "L1" 1 2 Status.discrepancy, sScan2) ∧
    handleItemScan "t3" [locL1, locL2] Role.admin [] sScan2 "A1" "loc1" =
      (ScanResult.success none "L1" 2 3 Status.matched, sScan3) ∧
    ((3 : Int) = 2 + 1 ∧
      ∃ r, sScan3.table = upsertRows sScan2.table [r] ∧ r.location = "L1" ∧
        r.physical_quantity = some 3 ∧
        (2 : Int) = (((getAuditedItems sScan2).find?
          (fun i => i.sku == r.sku && i.location == "L1")).bind
            (fun i => i.physicalQuantity)).getD 0) :=
  ⟨by decide, by decide, by decide,
    scan_increment_rule.1 "t3" [locL1, locL2] Role.admin [] sScan2 "A1" "loc1"
      none "L1" 2 3 Status.matched sScan3 (by decide)⟩

/-! ### C4: the location mismatch policy -/

/-- The commit path always succeeds, reporting an increment under the
given location and writing one row under that location. -/
theorem scanCommit_shape (now : String) (s : EngineState) (m : InventoryItem)
    (w : Option ScanWarning) (ln : String) :
    ∃ oldQ st s2, scanCommit now s m w ln = (ScanResult.success w ln oldQ (oldQ + 1) st, s2) ∧
      ∃ r, s2.table = upsertRows s.table [r] ∧ r.location = ln ∧ r.sku = m.sku := by
  simp only [scanCommit, updateAuditedItem]
  refine ⟨_, _, _, rfl, _, rfl, ?_, ?_⟩
  · simp [inventoryItemToDb, auditedItemUpdate]
  · simp [inventoryItemToDb, auditedItemUpdate]

/-- C4: on a location mismatch, an admin proceeds under the actual
location of the record with a non fatal warning, and a non admin whose
assigned location set contains the actual location of the record
proceeds under that location with a location corrected warning. -/
theorem handleItemScan_location_mismatch (now : String) (locations : List Location)
    (role : Role) (assigned : List String) (s : EngineState) (barcode locationId : String)
    (m : InventoryItem)
    (hid : locationId ≠ "")
    (hname : resolveLocationName locations locationId ≠ "")
    (hfind : (getItemMaster s).find? (fun item => item.id == barcode || item.sku == barcode) =
      some m)
    (hmismatch : m.location ≠ resolveLocationName locations locationId) :
    (role = Role.admin →
      ∃ oldQ st s2,
        handleItemScan now locations role (accessibleLocations role assigned locations) s
            barcode locationId =
          (ScanResult.success (some ScanWarning.locationMismatchAdmin) m.location oldQ
            (oldQ + 1) st, s2) ∧
        ∃ r, s2.table = upsertRows s.table [r] ∧ r.location = m.location) ∧
    (role ≠ Role.admin →
      (∃ l ∈ locations, assigned.contains l.id ∧ l.name = m.location) →
      ∃ oldQ st s2,
        handleItemScan now locations role (accessibleLocations role assigned locations) s
            barcode locationId =
          (ScanResult.success (some ScanWarning.locationCorrected) m.location oldQ
            (oldQ + 1) st, s2) ∧
        ∃ r, s2.table = upsertRows s.table [r] ∧ r.location = m.location) := by
  have h0 : (locationId == "") = false := beq_eq_false_iff_ne.mpr hid
  have h1 : (resolveLocationName locations locationId == "") = false :=
    beq_eq_false_iff_ne.mpr hname
  have h2 : (m.location != resolveLocationName locations locationId) = true := by
    simp [bne_iff_ne, hmismatch]
  constructor
  · intro hrole
    subst hrole
    obtain ⟨oldQ, st, s2, hc, r, hr, hrl, -⟩ :=
      scanCommit_shape now s m (some ScanWarning.locationMismatchAdmin) m.location
    refine ⟨oldQ, st, s2, ?_, r, hr, hrl⟩
    simp only [handleItemScan, h0, h1, hfind, h2, if_true, if_false, Bool.false_eq_true,
      beq_self_eq_true]
    exact hc
  · intro hrole haccess
    obtain ⟨l, hl, hlid, hlname⟩ := haccess
    have h3 : (role == Role.admin) = false := beq_eq_false_iff_ne.mpr hrole
    have h4 : ((accessibleLocations role assigned locations).find?
        (fun loc => loc.name == m.location)).isSome = true := by
      rw [List.find?_isSome]
      refine ⟨l, ?_, by simp [hlname]⟩
      unfold accessibleLocations
      rw [List.mem_filter]
      refine ⟨hl, ?_⟩
      have hmem : l.id ∈ assigned := by simpa using hlid
      simp [hmem]
    obtain ⟨oldQ, st, s2, hc, r, hr, hrl, -⟩ :=
      scanCommit_shape now s m (some ScanWarning.locationCorrected) m.location
    refine ⟨oldQ, st, s2, ?_, r, hr, hrl⟩
    simp only [handleItemScan, h0, h1, hfind, h2, h3, h4, if_true, if_false,
      Bool.false_eq_true]
    exact hc

/-- Witness for C4: scanning sku B2 (which belongs to L2) with L1
selected proceeds under L2 for an admin with a mismatch warning, and
for an auditor assigned to L2 with a corrected warning. -/
theorem handleItemScan_location_mismatch_witness :
    (∃ oldQ st s2,
      handleItemScan "t1" [locL1, locL2] Role.admin
          (accessibleLocations Role.admin [] [locL1, locL2]) stateA "B2" "loc1" =
        (ScanResult.success (some ScanWarning.locationMismatchAdmin) "L2" oldQ
          (oldQ + 1) st, s2) ∧
      ∃ r, s2.table = upsertRows stateA.table [r] ∧ r.location = "L2") ∧
    (∃ oldQ st s2,
      handleItemScan "t1" [locL1, locL2] Role.auditor
          (accessibleLocations Role.auditor ["loc1", "loc2"] [locL1, locL2]) stateA "B2"
          "loc1" =
        (ScanResult.success (some ScanWarning.locationCorrected) "L2" oldQ
          (oldQ + 1) st, s2) ∧
      ∃ r, s2.table = upsertRows stateA.table [r] ∧ r.location = "L2") :=
  ⟨(handleItemScan_location_mismatch "t1" [locL1, locL2] Role.admin [] stateA "B2" "loc1"
      (dbToInventoryItem rowB2) (by decide) (by decide) (by decide) (by decide)).1 rfl,
    (handleItemScan_location_mismatch "t1" [locL1, locL2] Role.auditor ["loc1", "loc2"]
      stateA "B2" "loc1" (dbToInventoryItem rowB2) (by decide) (by decide) (by decide)
      (by decide)).2 (by decide) ⟨locL2, by decide, by decide, by decide⟩⟩

/-! ### C5: access denial leaves the state untouched -/

/-- C5: a non admin scanning a sku whose record belongs to a location
outside the accessible set is rejected with access denied and the
engine state is exactly what it was. -/
theorem handleItemScan_access_denied (now : String) (locations : List Location)
    (role : Role) (access : List Location) (s : EngineState) (barcode locationId : String)
    (m : InventoryItem)
    (hrole : role ≠ Role.admin)
    (hid : locationId ≠ "")
    (hname : resolveLocationName locations locationId ≠ "")
    (hfind : (getItemMaster s).find? (fun item => item.id == barcode || item.sku == barcode) =
      some m)
    (hmismatch : m.location ≠ resolveLocationName locations locationId)
    (hdenied : ∀ loc ∈ access, loc.name ≠ m.location) :
    handleItemScan now locations role access s barcode locationId =
      (ScanResult.accessDenied, s) := by
  have h0 : (locationId == "") = false := beq_eq_false_iff_ne.mpr hid
  have h1 : (resolveLocationName locations locationId == "") = false :=
    beq_eq_false_iff_ne.mpr hname
  have h2 : (m.location != resolveLocationName locations locationId) = true := by
    simp [bne_iff_ne, hmismatch]
  have h3 : (role == Role.admin) = false := beq_eq_false_iff_ne.mpr hrole
  have h4 : (access.find? (fun loc => loc.name == m.location)) = none := by
    rw [List.find?_eq_none]
    intro l hl
    simp [hdenied l hl]
  simp [handleItemScan, h0, h1, hfind, h2, h3, h4]

/-- Witness for C5: an auditor whose accessible set is only L1
scanning sku B2 (which belongs to L2) is denied and the state is
unchanged. -/
theorem handleItemScan_access_denied_witness :
    handleItemScan "t1" [locL1, locL2] Role.auditor [locL1] stateA "B2" "loc1" =
      (ScanResult.accessDenied, stateA) :=
  handleItemScan_access_denied "t1" [locL1, locL2] Role.auditor [locL1] stateA "B2" "loc1"
    (dbToInventoryItem rowB2) (by decide) (by decide) (by decide) (by decide) (by decide)
    (by decide)

/-! ### C6: closing stock merge preserves descriptive fields -/

/-- Fixture: an existing master record named Widget with system
quantity 10. -/
def widgetMasterItem : InventoryItem :=
  { id := "7", sku := "W1", name := some "Widget", category := some "Tools"
    location := "L1", systemQuantity := 10, physicalQuantity := some 4
    status := some Status.discrepancy, lastAudited := some "t0", notes := some "check"
    companyId := none }

/-- Fixture: an incoming closing stock row for the same key carrying
only the quantity 50. -/
def widgetIncoming : InventoryItem :=
  { id := "", sku := "W1", name := none, category := none, location := "L1"
    systemQuantity := 50, physicalQuantity := none, status := none
    lastAudited := none, notes := none, companyId := none }

/-- C6: the closing stock merge keeps every field of the existing
record for the same (sku, location) key and overwrites only the system
quantity; with no existing record the incoming row itself is used; the
batch merge applies this row by row. -/
theorem mergeClosingStock_preserves_fields (itemMaster : List InventoryItem)
    (incoming : InventoryItem) :
    (∀ existing,
      itemMaster.find?
          (fun i => i.sku == incoming.sku && i.location == incoming.location) =
        some existing →
      (mergeClosingStockItem itemMaster incoming).id = existing.id ∧
      (mergeClosingStockItem itemMaster incoming).name = existing.name ∧
      (mergeClosingStockItem itemMaster incoming).category = existing.category ∧
      (mergeClosingStockItem itemMaster incoming).sku = incoming.sku ∧
      (mergeClosingStockItem itemMaster incoming).location = incoming.location ∧
      (mergeClosingStockItem itemMaster incoming).physicalQuantity = existing.physicalQuantity ∧
      (mergeClosingStockItem itemMaster incoming).status = existing.status ∧
      (mergeClosingStockItem itemMaster incoming).lastAudited = existing.lastAudited ∧
      (mergeClosingStockItem itemMaster incoming).notes = existing.notes ∧
      (mergeClosingStockItem itemMaster incoming).systemQuantity = incoming.systemQuantity) ∧
    (itemMaster.find?
        (fun i => i.sku == incoming.sku && i.location == incoming.location) = none →
      mergeClosingStockItem itemMaster incoming = incoming) ∧
    (∀ items : List InventoryItem,
      mergeClosingStock itemMaster items = items.map (mergeClosingStockItem itemMaster)) := by
  refine ⟨?_, ?_, fun items => rfl⟩
  · intro existing hfind
    have hp := List.find?_some hfind
    simp only [Bool.and_eq_true, beq_iff_eq] at hp
    unfold mergeClosingStockItem
    rw [hfind]
    exact ⟨rfl, rfl, rfl, hp.1, hp.2, rfl, rfl, rfl, rfl, rfl⟩
  · intro hnone
    unfold mergeClosingStockItem
    rw [hnone]

/-- Witness for C6: merging the quantity 50 row for (W1, L1) against
the Widget master record keeps the name Widget (and every other field)
and sets the system quantity to 50. -/
theorem mergeClosingStock_preserves_fields_witness :
    (mergeClosingStockItem [widgetMasterItem] widgetIncoming).id = widgetMasterItem.id ∧
    (mergeClosingStockItem [widgetMasterItem] widgetIncoming).name = widgetMasterItem.name ∧
    (mergeClosingStockItem [widgetMasterItem] widgetIncoming).category = widgetMasterItem.category ∧
    (mergeClosingStockItem [widgetMasterItem] widgetIncoming).sku = widgetIncoming.sku ∧
    (mergeClosingStockItem [widgetMasterItem] widgetIncoming).location = widgetIncoming.location ∧
    (mergeClosingStockItem [widgetMasterItem] widgetIncoming).physicalQuantity = widgetMasterItem.physicalQuantity ∧
    (mergeClosingStockItem [widgetMasterItem] widgetIncoming).status = widgetMasterItem.status ∧
    (mergeClosingStockItem [widgetMasterItem] widgetIncoming).lastAudited = widgetMasterItem.lastAudited ∧
    (mergeClosingStockItem [widgetMasterItem] widgetIncoming).notes = widgetMasterItem.notes ∧
    (mergeClosingStockItem [widgetMasterItem] widgetIncoming).systemQuantity = widgetIncoming.systemQuantity :=
  (mergeClosingStock_preserves_fields [widgetMasterItem] widgetIncoming).1
    widgetMasterItem (by decide)

/-! ### C9: summary partition consistency -/

/-- The number of records at a location is the count of that location
name among the mapped location names. -/
theorem length_filter_location_eq_count (l : List InventoryItem) (loc : String) :
    (l.filter (fun i => i.location == loc)).length =
      (l.map (fun i => i.location)).count loc := by
  induction l with
  | nil => rfl
  | cons a t ih =>
    simp only [List.filter_cons, List.map_cons, List.count_cons]
    by_cases h : (a.location == loc) = true
    · rw [if_pos h, List.length_cons, ih, if_pos h]
    · rw [if_neg h, ih, if_neg h, Nat.add_zero]

/-- Summing integer casts of naturals over a list is the cast of the
natural sum. -/
theorem sum_map_intCast (l : List String) (g : String → Nat) :
    (l.map (fun a => ((g a : Nat) : Int))).sum = (((l.map g).sum : Nat) : Int) := by
  induction l with
  | nil => rfl
  | cons a t ih => simp [List.map_cons, List.sum_cons, ih, Nat.cast_add]

/-- Among records at one and the same location, the audit key string
determines the sku: the shared suffix cancels on the right. -/
theorem auditKeyString_inj_of_same_location {x y : InventoryItem}
    (hl : x.location = y.location) (h : auditKeyString x = auditKeyString y) :
    x.sku = y.sku := by
  unfold auditKeyString at h
  rw [hl] at h
  have hd : x.sku.data ++ "-".data ++ y.location.data =
      y.sku.data ++ "-".data ++ y.location.data := congrArg String.data h
  exact String.ext (List.append_cancel_right (List.append_cancel_right hd))

/-- C9: the global total is the sum of the per location totals over
the distinct location names appearing in the master list, and on an
audited set with pairwise distinct composite (sku, location) keys (the
uniqueness the table enforces) the per location summary is exactly the
global summary restricted to the records at that location.  Within one
location the composite keys determine the key strings of the global
summary injectively, so the weaker pair level uniqueness suffices. -/
theorem summary_partition_consistent :
    (∀ itemMaster auditedItems : List InventoryItem,
      (((itemMaster.map (fun i => i.location)).dedup).map
        (fun loc => (getLocationSummary itemMaster auditedItems loc).totalItems)).sum =
        (getInventorySummary itemMaster auditedItems).totalItems) ∧
    (∀ (itemMaster auditedItems : List InventoryItem) (loc : String),
      distinctItemKeys auditedItems →
      getLocationSummary itemMaster auditedItems loc =
        getInventorySummary (itemMaster.filter (fun i => i.location == loc))
          (auditedItems.filter (fun i => i.location == loc))) := by
  constructor
  · intro itemMaster auditedItems
    have hcount := List.sum_map_count_dedup_eq_length (itemMaster.map (fun i => i.location))
    have hmap : ((itemMaster.map (fun i => i.location)).dedup).map
        (fun loc => (getLocationSummary itemMaster auditedItems loc).totalItems) =
        ((itemMaster.map (fun i => i.location)).dedup).map
        (fun loc => (((itemMaster.map (fun i => i.location)).count loc : Nat) : Int)) := by
      apply List.map_eq_map_iff.mpr
      intro loc _
      rw [← length_filter_location_eq_count]
      simp [getLocationSummary]
    rw [hmap, sum_map_intCast, hcount]
    simp [getInventorySummary, List.length_map]
  · intro itemMaster auditedItems loc hnd
    have hndf : ((auditedItems.filter (fun i => i.location == loc)).map itemKey).Nodup :=
      hnd.sublist (List.Sublist.map itemKey (List.filter_sublist auditedItems))
    have hinj : ∀ x ∈ auditedItems.filter (fun i => i.location == loc),
        ∀ y ∈ auditedItems.filter (fun i => i.location == loc),
        auditKeyString x = auditKeyString y → x = y := by
      intro x hx y hy hxy
      have hxl : x.location = loc := by simpa using (List.mem_filter.mp hx).2
      have hyl : y.location = loc := by simpa using (List.mem_filter.mp hy).2
      have hsku : x.sku = y.sku :=
        auditKeyString_inj_of_same_location (hxl.trans hyl.symm) hxy
      have hkey : itemKey x = itemKey y := by
        unfold itemKey
        rw [hsku, hxl, hyl]
      exact List.inj_on_of_nodup_map hndf hx hy hkey
    have hnd2 : ((auditedItems.filter (fun i => i.location == loc)).map auditKeyString).Nodup :=
      List.Nodup.map_on hinj (List.Nodup.of_map itemKey hndf)
    have hdedup : ((auditedItems.filter (fun i => i.location == loc)).map auditKeyString).dedup =
        (auditedItems.filter (fun i => i.location == loc)).map auditKeyString :=
      List.dedup_eq_self.mpr hnd2
    simp only [getLocationSummary, getInventorySummary, hdedup, List.length_map]

/-- Witness for C9: a two location, three record master list with two
audited records; the second component of the theorem is applied at
location L1 with the duplicate freeness discharged by evaluation. -/
theorem summary_partition_consistent_witness :
    getLocationSummary [itemA1, dbToInventoryItem rowB2] [dbToInventoryItem rowA1AfterScan]
        "L1" =
      getInventorySummary
        ([itemA1, dbToInventoryItem rowB2].filter (fun i => i.location == "L1"))
        ([dbToInventoryItem rowA1AfterScan].filter (fun i => i.location == "L1")) :=
  summary_partition_consistent.2 [itemA1, dbToInventoryItem rowB2]
    [dbToInventoryItem rowA1AfterScan] "L1" (by decide)

/-! ### C8: closing stock import is idempotent -/

/-- A table row converts back and forth without loss. -/
theorem inventoryItemToDb_dbToInventoryItem (r : DbItem) :
    inventoryItemToDb (dbToInventoryItem r) = r := rfl

/-- Conversion to a table row keeps the composite key. -/
theorem dbKey_inventoryItemToDb (i : InventoryItem) :
    dbKey (inventoryItemToDb i) = itemKey i := rfl

/-- The closing stock merge keeps the composite key of the incoming
row. -/
theorem mergeClosingStockItem_key (master : List InventoryItem) (x : InventoryItem) :
    (mergeClosingStockItem master x).sku = x.sku ∧
      (mergeClosingStockItem master x).location = x.location := by
  unfold mergeClosingStockItem
  cases hfind : master.find? (fun i => i.sku == x.sku && i.location == x.location) with
  | none => exact ⟨rfl, rfl⟩
  | some e =>
    have hp := List.find?_some hfind
    simp only [Bool.and_eq_true, beq_iff_eq] at hp
    exact ⟨hp.1, hp.2⟩

/-- The closing stock merge always takes the system quantity of the
incoming row. -/
theorem mergeClosingStockItem_systemQuantity (master : List InventoryItem) (x : InventoryItem) :
    (mergeClosingStockItem master x).systemQuantity = x.systemQuantity := by
  unfold mergeClosingStockItem
  cases hfind : master.find? (fun i => i.sku == x.sku && i.location == x.location) with
  | none => rfl
  | some e => rfl

/-- The closing stock merge with a found existing record spreads that
record and overwrites only the system quantity. -/
theorem mergeClosingStockItem_of_found (master : List InventoryItem) (x e : InventoryItem)
    (h : master.find? (fun i => i.sku == x.sku && i.location == x.location) = some e) :
    mergeClosingStockItem master x = { e with systemQuantity := x.systemQuantity } := by
  unfold mergeClosingStockItem
  rw [h]

/-- Lookup respects pointwise equal predicates. -/
theorem find?_ext {α : Type} (l : List α) (p q : α → Bool) (h : ∀ x ∈ l, p x = q x) :
    l.find? p = l.find? q := by
  induction l with
  | nil => rfl
  | cons a t ih =>
    have ha := h a (List.mem_cons_self a t)
    by_cases hq : q a = true
    · rw [List.find?_cons_of_pos _ (ha.trans hq), List.find?_cons_of_pos _ hq]
    · have hq2 : q a = false := by simpa using hq
      rw [List.find?_cons_of_neg, List.find?_cons_of_neg]
      · exact ih (fun x hx => h x (List.mem_cons_of_mem a hx))
      · simp [hq2]
      · simp [ha, hq2]

/-- After upserting a row, looking its key up finds exactly that
row. -/
theorem find?_upsertRow_self (T : List DbItem) (r : DbItem) :
    (upsertRow T r).find? (fun t => dbKey t == dbKey r) = some r := by
  unfold upsertRow
  by_cases hc : (T.any (fun t => dbKey t == dbKey r)) = true
  · rw [if_pos hc, List.find?_map]
    rw [find?_ext T _ (fun t => dbKey t == dbKey r) ?hext]
    case hext =>
      intro t _
      by_cases hk : (dbKey t == dbKey r) = true
      · simp [Function.comp, hk]
      · simp [Function.comp, hk]
    obtain ⟨t0, ht0mem, ht0⟩ := List.any_eq_true.mp hc
    cases hfind : T.find? (fun t => dbKey t == dbKey r) with
    | none =>
      rw [List.find?_eq_none] at hfind
      exact absurd ht0 (by simpa using hfind t0 ht0mem)
    | some t1 =>
      have hk := List.find?_some hfind
      simp [Option.map, hk]
  · rw [if_neg hc, List.find?_append]
    have h1 : T.find? (fun t => dbKey t == dbKey r) = none := by
      rw [List.find?_eq_none]
      intro x hx hpx
      exact hc (List.any_eq_true.mpr ⟨x, hx, hpx⟩)
    rw [h1]
    simp [List.find?]

/-- Upserting a row does not change the lookup of a different key. -/
theorem find?_upsertRow_other (T : List DbItem) (r : DbItem) (k : String × String)
    (h : dbKey r ≠ k) :
    (upsertRow T r).find? (fun t => dbKey t == k) = T.find? (fun t => dbKey t == k) := by
  unfold upsertRow
  by_cases hc : (T.any (fun t => dbKey t == dbKey r)) = true
  · rw [if_pos hc, List.find?_map]
    rw [find?_ext T _ (fun t => dbKey t == k) ?hext]
    case hext =>
      intro t _
      by_cases hk2 : (dbKey t == dbKey r) = true
      · have heq : dbKey t = dbKey r := by simpa using hk2
        simp only [Function.comp, if_pos hk2]
        rw [heq]
      · simp [Function.comp, hk2]
    cases hfind : T.find? (fun t => dbKey t == k) with
    | none => rfl
    | some t1 =>
      have hk1 : dbKey t1 = k := by simpa using List.find?_some hfind
      have hne : (dbKey t1 == dbKey r) = false := by
        rw [beq_eq_false_iff_ne, hk1]
        exact fun he => h he.symm
      simp [Option.map, hne]
  · rw [if_neg hc, List.find?_append]
    have h2 : [r].find? (fun t => dbKey t == k) = none := by
      simp [List.find?, beq_eq_false_iff_ne.mpr h]
    rw [h2]
    cases T.find? (fun t => dbKey t == k) <;> rfl

/-- Upserting a batch of rows, none of which carries the key, does not
change the lookup of that key. -/
theorem find?_upsertRows_other (rows : List DbItem) (k : String × String)
    (h : ∀ r ∈ rows, dbKey r ≠ k) :
    ∀ T : List DbItem,
      (upsertRows T rows).find? (fun t => dbKey t == k) = T.find? (fun t => dbKey t == k) := by
  induction rows with
  | nil => intro T; rfl
  | cons a rest ih =>
    intro T
    show (upsertRows (upsertRow T a) rest).find? (fun t => dbKey t == k) = _
    rw [ih (fun r hr => h r (List.mem_cons_of_mem a hr)) (upsertRow T a)]
    exact find?_upsertRow_other T a k (h a (List.mem_cons_self a rest))

/-- After upserting a batch of rows with pairwise distinct keys, the
lookup of the key of any row of the batch finds exactly that row. -/
theorem find?_upsertRows_self (rows : List DbItem) (hnd : (rows.map dbKey).Nodup) :
    ∀ (T : List DbItem), ∀ r ∈ rows,
      (upsertRows T rows).find? (fun t => dbKey t == dbKey r) = some r := by
  induction rows with
  | nil => intro T r hr; cases hr
  | cons a rest ih =>
    intro T r hr
    rw [List.map_cons, List.nodup_cons] at hnd
    obtain ⟨hna, hndrest⟩ := hnd
    rcases List.mem_cons.mp hr with rfl | hmem
    · show (upsertRows (upsertRow T r) rest).find? (fun t => dbKey t == dbKey r) = some r
      rw [find?_upsertRows_other rest (dbKey r) ?hother (upsertRow T r)]
      case hother =>
        intro q hq he
        exact hna (he ▸ List.mem_map_of_mem dbKey hq)
      exact find?_upsertRow_self T r
    · exact ih hndrest (upsertRow T a) r hmem

/-- An upsert step keeps the keys of the table pairwise distinct. -/
theorem distinctKeys_upsertRow {T : List DbItem} (r : DbItem) (h : distinctKeys T) :
    distinctKeys (upsertRow T r) := by
  unfold distinctKeys at *
  unfold upsertRow
  by_cases hc : (T.any (fun t => dbKey t == dbKey r)) = true
  · rw [if_pos hc, List.map_map]
    have hsame : T.map (dbKey ∘ fun x => if dbKey x == dbKey r then r else x) = T.map dbKey := by
      apply List.map_eq_map_iff.mpr
      intro x _
      by_cases hk : (dbKey x == dbKey r) = true
      · have heq : dbKey x = dbKey r := by simpa using hk
        simp [Function.comp, hk, heq]
      · simp [Function.comp, hk]
    rw [hsame]
    exact h
  · rw [if_neg hc, List.map_append]
    rw [List.nodup_append]
    refine ⟨h, List.nodup_singleton _, ?_⟩
    intro a ha hb
    obtain ⟨t, ht, rfl⟩ := List.mem_map.mp ha
    have he : dbKey t = dbKey r := by simpa using hb
    exact absurd (List.any_eq_true.mpr ⟨t, ht, by simp [he]⟩) hc

/-- A batch upsert keeps the keys of the table pairwise distinct. -/
theorem distinctKeys_upsertRows (rows : List DbItem) :
    ∀ T : List DbItem, distinctKeys T → distinctKeys (upsertRows T rows) := by
  induction rows with
  | nil => intro T h; exact h
  | cons a rest ih =>
    intro T h
    exact ih (upsertRow T a) (distinctKeys_upsertRow a h)

/-- Upserting a row that is already stored under its key leaves a
duplicate free table unchanged. -/
theorem upsertRow_of_present {T : List DbItem} {r : DbItem} (hd : distinctKeys T)
    (hf : T.find? (fun t => dbKey t == dbKey r) = some r) : upsertRow T r = T := by
  unfold upsertRow
  have hmem : r ∈ T := List.mem_of_find?_eq_some hf
  have hany : (T.any (fun t => dbKey t == dbKey r)) = true :=
    List.any_eq_true.mpr ⟨r, hmem, by simp⟩
  rw [if_pos hany]
  have hpt : ∀ x ∈ T, (if dbKey x == dbKey r then r else x) = x := by
    intro x hx
    by_cases hk : (dbKey x == dbKey r) = true
    · have heq : dbKey x = dbKey r := by simpa using hk
      have hxr : x = r := List.inj_on_of_nodup_map hd hx hmem heq
      rw [if_pos hk, hxr]
    · rw [if_neg hk]
  calc T.map (fun x => if dbKey x == dbKey r then r else x) = T.map id :=
        List.map_eq_map_iff.mpr (fun x hx => hpt x hx)
    _ = T := List.map_id T

/-- Upserting a batch whose rows are all already stored under their
keys leaves a duplicate free table unchanged. -/
theorem upsertRows_of_present {T : List DbItem} (rows : List DbItem) (hd : distinctKeys T)
    (hall : ∀ r ∈ rows, T.find? (fun t => dbKey t == dbKey r) = some r) :
    upsertRows T rows = T := by
  induction rows with
  | nil => rfl
  | cons a rest ih =>
    have hTa : upsertRow T a = T :=
      upsertRow_of_present hd (hall a (List.mem_cons_self a rest))
    show upsertRows (upsertRow T a) rest = T
    rw [hTa]
    exact ih (fun r hr => hall r (List.mem_cons_of_mem a hr))

/-- Looking up a key over the domain view of the table is the lookup
over the table itself, converted. -/
theorem getItemMaster_find?_key (T : List DbItem) (x : InventoryItem) :
    (T.map dbToInventoryItem).find? (fun i => i.sku == x.sku && i.location == x.location) =
      (T.find? (fun t => dbKey t == itemKey x)).map dbToInventoryItem := by
  rw [List.find?_map]
  rw [find?_ext T
    ((fun i : InventoryItem => i.sku == x.sku && i.location == x.location) ∘ dbToInventoryItem)
    (fun t => dbKey t == itemKey x) (fun t _ => rfl)]

/-- C8: applying the same closing stock import twice, the second
application running against the state produced by the first, yields an
identical stored record set, provided the table keys are unique (the
database constraint) and the import rows carry pairwise distinct
(sku, location) keys. -/
theorem setClosingStock_idempotent (s : EngineState) (items : List InventoryItem)
    (hs : distinctKeys s.table) (hitems : distinctItemKeys items) :
    setClosingStock (setClosingStock s items) items = setClosingStock s items := by
  have hkeys : (((mergeClosingStock (getItemMaster s) items).map inventoryItemToDb).map dbKey) =
      items.map itemKey := by
    unfold mergeClosingStock
    rw [List.map_map, List.map_map]
    apply List.map_eq_map_iff.mpr
    intro x _
    show dbKey (inventoryItemToDb (mergeClosingStockItem (getItemMaster s) x)) = itemKey x
    rw [dbKey_inventoryItemToDb]
    unfold itemKey
    obtain ⟨h1, h2⟩ := mergeClosingStockItem_key (getItemMaster s) x
    rw [h1, h2]
  have hndrows : (((mergeClosingStock (getItemMaster s) items).map inventoryItemToDb).map
      dbKey).Nodup := by
    rw [hkeys]
    exact hitems
  have hall : ∀ r ∈ (mergeClosingStock (getItemMaster s) items).map inventoryItemToDb,
      (upsertRows s.table
        ((mergeClosingStock (getItemMaster s) items).map inventoryItemToDb)).find?
        (fun t => dbKey t == dbKey r) = some r :=
    fun r hr => find?_upsertRows_self _ hndrows s.table r hr
  have hfound : ∀ x ∈ items,
      (upsertRows s.table
        ((mergeClosingStock (getItemMaster s) items).map inventoryItemToDb)).find?
        (fun t => dbKey t == itemKey x) =
      some (inventoryItemToDb (mergeClosingStockItem (getItemMaster s) x)) := by
    intro x hx
    have hr : inventoryItemToDb (mergeClosingStockItem (getItemMaster s) x) ∈
        (mergeClosingStock (getItemMaster s) items).map inventoryItemToDb :=
      List.mem_map_of_mem _ (List.mem_map_of_mem _ hx)
    have h := hall (inventoryItemToDb (mergeClosingStockItem (getItemMaster s) x)) hr
    have hk : dbKey (inventoryItemToDb (mergeClosingStockItem (getItemMaster s) x)) =
        itemKey x := by
      rw [dbKey_inventoryItemToDb]
      unfold itemKey
      obtain ⟨h1, h2⟩ := mergeClosingStockItem_key (getItemMaster s) x
      rw [h1, h2]
    rw [hk] at h
    exact h
  have hmerge2 : ∀ x ∈ items,
      mergeClosingStockItem (getItemMaster (setClosingStock s items)) x =
        dbToInventoryItem (inventoryItemToDb (mergeClosingStockItem (getItemMaster s) x)) := by
    intro x hx
    have hfind : (getItemMaster (setClosingStock s items)).find?
        (fun i => i.sku == x.sku && i.location == x.location) =
        some (dbToInventoryItem
          (inventoryItemToDb (mergeClosingStockItem (getItemMaster s) x))) := by
      show ((setClosingStock s items).table.map dbToInventoryItem).find?
        (fun i => i.sku == x.sku && i.location == x.location) = _
      rw [getItemMaster_find?_key]
      show ((upsertRows s.table
          ((mergeClosingStock (getItemMaster s) items).map inventoryItemToDb)).find?
          (fun t => dbKey t == itemKey x)).map dbToInventoryItem = _
      rw [hfound x hx]
      rfl
    rw [mergeClosingStockItem_of_found _ x _ hfind]
    have hsys : x.systemQuantity =
        (dbToInventoryItem
          (inventoryItemToDb (mergeClosingStockItem (getItemMaster s) x))).systemQuantity := by
      show x.systemQuantity = (mergeClosingStockItem (getItemMaster s) x).systemQuantity
      exact (mergeClosingStockItem_systemQuantity (getItemMaster s) x).symm
    rw [hsys]
  have hrows2 : (mergeClosingStock (getItemMaster (setClosingStock s items)) items).map
      inventoryItemToDb =
      (mergeClosingStock (getItemMaster s) items).map inventoryItemToDb := by
    unfold mergeClosingStock
    rw [List.map_map, List.map_map]
    apply List.map_eq_map_iff.mpr
    intro x hx
    show inventoryItemToDb (mergeClosingStockItem (getItemMaster (setClosingStock s items)) x) =
      inventoryItemToDb (mergeClosingStockItem (getItemMaster s) x)
    rw [hmerge2 x hx, inventoryItemToDb_dbToInventoryItem]
  have hd1 : distinctKeys (setClosingStock s items).table :=
    distinctKeys_upsertRows _ s.table hs
  have htab : (setClosingStock (setClosingStock s items) items).table =
      (setClosingStock s items).table := by
    show upsertRows (setClosingStock s items).table
      ((mergeClosingStock (getItemMaster (setClosingStock s items)) items).map
        inventoryItemToDb) = (setClosingStock s items).table
    rw [hrows2]
    exact upsertRows_of_present _ hd1 hall
  calc setClosingStock (setClosingStock s items) items =
        EngineState.mk (setClosingStock (setClosingStock s items) items).table := rfl
    _ = EngineState.mk (setClosingStock s items).table := by rw [htab]
    _ = setClosingStock s items := rfl

/-- Fixture: a closing stock row for (A1, L1) carrying quantity 7. -/
def closingA1 : InventoryItem :=
  { id := "", sku := "A1", name := some "Widget", category := none, location := "L1"
    systemQuantity := 7, physicalQuantity := none, status := none
    lastAudited := none, notes := none, companyId := none }

/-- Witness for C8: importing the single row closing stock twice over
the two row state gives the same state as importing it once. -/
theorem setClosingStock_idempotent_witness :
    setClosingStock (setClosingStock stateA [closingA1]) [closingA1] =
      setClosingStock stateA [closingA1] :=
  setClosingStock_idempotent stateA [closingA1] (by decide) (by decide)
